import Mathlib

/-!
Verification of the Sympla → Agroforestree webhook middleware.

The definitions below are a shallow embedding of the repository's
TypeScript source:

* `src/utils/signature.ts`   — `SignatureValidator.validateSignature`,
  `SignatureValidator.validateTimestamp`;
* `src/utils/tokenGenerator.ts` — `TokenGenerator.generateDonationToken`,
  `TokenGenerator.validateToken`;
* `src/handlers/webhookHandler.ts` — `WebhookHandler.processWebhook` and
  the order-lifecycle handlers backed by an in-memory `Map`.

Bytes are modelled as natural numbers below 256, byte sequences as
`List Nat`, and the Node.js library functions the source calls
(`crypto.createHmac('sha256', …)`, `Buffer.from(_, 'hex')`,
`Buffer.from(_, 'base64url')`, `String.prototype.trim`, `JSON.stringify`
/ `JSON.parse` on token payloads, UTF-8 string/byte conversions) are
implemented executably with the exact semantics the source relies on.
Wall-clock time (`Date.now()`), the `uuid` generator and the downstream
gateway outcome are passed in explicitly as parameters.
-/

set_option autoImplicit false

namespace SymplaMiddleware

/-! ## SHA-256 (FIPS 180-4), as computed by Node's `crypto` module -/

/-- Truncation to a 32-bit word. -/
def w32 (n : Nat) : Nat := n % 4294967296

/-- Right rotation of a 32-bit word. -/
def rotr32 (n x : Nat) : Nat := w32 ((x >>> n) ||| (x <<< (32 - n)))

/-- SHA-256 small sigma 0. -/
def ssig0 (x : Nat) : Nat := rotr32 7 x ^^^ rotr32 18 x ^^^ (x >>> 3)

/-- SHA-256 small sigma 1. -/
def ssig1 (x : Nat) : Nat := rotr32 17 x ^^^ rotr32 19 x ^^^ (x >>> 10)

/-- SHA-256 big sigma 0. -/
def bsig0 (x : Nat) : Nat := rotr32 2 x ^^^ rotr32 13 x ^^^ rotr32 22 x

/-- SHA-256 big sigma 1. -/
def bsig1 (x : Nat) : Nat := rotr32 6 x ^^^ rotr32 11 x ^^^ rotr32 25 x

/-- SHA-256 choice function (complement taken inside 32 bits). -/
def chf (x y z : Nat) : Nat := (x &&& y) ^^^ ((x ^^^ 4294967295) &&& z)

/-- SHA-256 majority function. -/
def majf (x y z : Nat) : Nat := (x &&& y) ^^^ (x &&& z) ^^^ (y &&& z)

/-- SHA-256 round constants. -/
def sha256K : List Nat :=
  [1116352408, 1899447441, 3049323471, 3921009573, 961987163, 1508970993,
   2453635748, 2870763221, 3624381080, 310598401, 607225278, 1426881987,
   1925078388, 2162078206, 2614888103, 3248222580, 3835390401, 4022224774,
   264347078, 604807628, 770255983, 1249150122, 1555081692, 1996064986,
   2554220882, 2821834349, 2952996808, 3210313671, 3336571891, 3584528711,
   113926993, 338241895, 666307205, 773529912, 1294757372, 1396182291,
   1695183700, 1986661051, 2177026350, 2456956037, 2730485921, 2820302411,
   3259730800, 3345764771, 3516065817, 3600352804, 4094571909, 275423344,
   430227734, 506948616, 659060556, 883997877, 958139571, 1322822218,
   1537002063, 1747873779, 1955562222, 2024104815, 2227730452, 2361852424,
   2428436474, 2756734187, 3204031479, 3329325298]

/-- SHA-256 initial hash value. -/
def sha256H0 : List Nat :=
  [1779033703, 3144134277, 1013904242, 2773480762,
   1359893119, 2600822924, 528734635, 1541459225]

/-- Big-endian byte decomposition of `v` into `n` bytes. -/
def beBytes (n v : Nat) : List Nat :=
  (List.range n).map (fun i => v / 256 ^ (n - 1 - i) % 256)

/-- Merkle–Damgård padding of a byte message. -/
def sha256Pad (msg : List Nat) : List Nat :=
  let L := msg.length
  msg ++ 0x80 :: List.replicate ((119 - L % 64) % 64) 0 ++ beBytes 8 (8 * L)

/-- Big-endian 32-bit words of a byte sequence. -/
def beWords : List Nat → List Nat
  | b1 :: b2 :: b3 :: b4 :: rest => (((b1 * 256 + b2) * 256 + b3) * 256 + b4) :: beWords rest
  | _ => []

/-- Message-schedule extension from 16 to 64 words. -/
def sha256Extend (w : List Nat) : List Nat :=
  (List.range 48).foldl
    (fun ws _ =>
      let n := ws.length
      ws ++ [w32 (ssig1 (ws.getD (n - 2) 0) + ws.getD (n - 7) 0 +
                  ssig0 (ws.getD (n - 15) 0) + ws.getD (n - 16) 0)])
    w

/-- Working state of the SHA-256 compression loop. -/
structure Sha256State where
  a : Nat
  b : Nat
  c : Nat
  d : Nat
  e : Nat
  f : Nat
  g : Nat
  h : Nat

/-- One round of the SHA-256 compression function. -/
def sha256Round (k w : Nat) (s : Sha256State) : Sha256State :=
  let t1 := w32 (s.h + bsig1 s.e + chf s.e s.f s.g + k + w)
  let t2 := w32 (bsig0 s.a + majf s.a s.b s.c)
  ⟨w32 (t1 + t2), s.a, s.b, s.c, w32 (s.d + t1), s.e, s.f, s.g⟩

/-- Compression of a single 64-byte block into the running hash. -/
def sha256Compress (hs : List Nat) (block : List Nat) : List Nat :=
  let w := sha256Extend (beWords block)
  let init : Sha256State :=
    ⟨hs.getD 0 0, hs.getD 1 0, hs.getD 2 0, hs.getD 3 0,
     hs.getD 4 0, hs.getD 5 0, hs.getD 6 0, hs.getD 7 0⟩
  let s := (List.range 64).foldl (fun s i => sha256Round (sha256K.getD i 0) (w.getD i 0) s) init
  [w32 (hs.getD 0 0 + s.a), w32 (hs.getD 1 0 + s.b), w32 (hs.getD 2 0 + s.c),
   w32 (hs.getD 3 0 + s.d), w32 (hs.getD 4 0 + s.e), w32 (hs.getD 5 0 + s.f),
   w32 (hs.getD 6 0 + s.g), w32 (hs.getD 7 0 + s.h)]

/-- The 64-byte blocks of a padded message. -/
def blocks64 (l : List Nat) : List (List Nat) :=
  (List.range (l.length / 64)).map (fun i => (l.drop (64 * i)).take 64)

/-- SHA-256 digest (32 bytes) of a byte message. -/
def sha256 (msg : List Nat) : List Nat :=
  let hs := (blocks64 (sha256Pad msg)).foldl sha256Compress sha256H0
  hs.foldr (fun w acc => beBytes 4 w ++ acc) []

/-- HMAC-SHA256 (RFC 2104) of `msg` under `key`, as `crypto.createHmac('sha256', key)`. -/
def hmacSha256 (key msg : List Nat) : List Nat :=
  let k0 := if 64 < key.length then sha256 key else key
  let kp := k0 ++ List.replicate (64 - k0.length) 0
  sha256 ((kp.map (fun b => b ^^^ 0x5c)) ++ sha256 ((kp.map (fun b => b ^^^ 0x36)) ++ msg))

/-! ## Byte/text codecs used by the source (Node semantics) -/

/-- Lower-case hexadecimal digit characters, as `Buffer.toString('hex')` uses. -/
def hexDigitChar (n : Nat) : Char :=
  "0123456789abcdef".data.getD n '0'

/-- Hex encoding of a byte sequence (`digest('hex')`). -/
def bytesToHex (l : List Nat) : List Char :=
  l.foldr (fun b acc => hexDigitChar (b / 16) :: hexDigitChar (b % 16) :: acc) []

/-- Value of a hexadecimal digit character, `none` for a non-hex character. -/
def hexVal (c : Char) : Option Nat :=
  if '0' ≤ c ∧ c ≤ '9' then some (c.toNat - 48)
  else if 'a' ≤ c ∧ c ≤ 'f' then some (c.toNat - 87)
  else if 'A' ≤ c ∧ c ≤ 'F' then some (c.toNat - 55)
  else none

/-- Node's `Buffer.from(string, 'hex')`: decodes hex pairs and stops silently at
the first pair containing an invalid character (or at a trailing lone digit),
returning the bytes decoded so far. -/
def hexDecodeChars : List Char → List Nat
  | c1 :: c2 :: rest =>
    match hexVal c1, hexVal c2 with
    | some hi, some lo => (16 * hi + lo) :: hexDecodeChars rest
    | _, _ => []
  | _ => []

/-- UTF-8 encoding of a unicode scalar value. -/
def utf8EncodeChar (n : Nat) : List Nat :=
  if n < 128 then [n]
  else if n < 2048 then [192 + n / 64, 128 + n % 64]
  else if n < 65536 then [224 + n / 4096, 128 + n / 64 % 64, 128 + n % 64]
  else [240 + n / 262144, 128 + n / 4096 % 64, 128 + n / 64 % 64, 128 + n % 64]

/-- UTF-8 bytes of a character sequence (Node's `Buffer.from(string)`). -/
def utf8BytesOfChars (l : List Char) : List Nat :=
  l.foldr (fun c acc => utf8EncodeChar c.toNat ++ acc) []

/-- UTF-8 bytes of a string. -/
def utf8Bytes (s : String) : List Nat := utf8BytesOfChars s.data

/-- One-codepoint-per-step UTF-8 decoder with structural fuel (one unit per
decoded character; a byte count is always enough fuel). -/
def utf8DecodeAux : Nat → List Nat → List Char
  | 0, _ => []
  | _ + 1, [] => []
  | fuel + 1, b :: rest =>
    if b < 128 then Char.ofNat b :: utf8DecodeAux fuel rest
    else if b < 224 then
      Char.ofNat ((b - 192) * 64 + (rest.headD 0 - 128)) :: utf8DecodeAux fuel (rest.drop 1)
    else if b < 240 then
      Char.ofNat (((b - 224) * 64 + (rest.headD 0 - 128)) * 64 + ((rest.drop 1).headD 0 - 128)) ::
        utf8DecodeAux fuel (rest.drop 2)
    else
      Char.ofNat ((((b - 240) * 64 + (rest.headD 0 - 128)) * 64 + ((rest.drop 1).headD 0 - 128)) *
          64 + ((rest.drop 2).headD 0 - 128)) ::
        utf8DecodeAux fuel (rest.drop 3)

/-- UTF-8 decoding of a byte sequence (Node's `buffer.toString()`), faithful on
valid UTF-8 input, which is the only input the source feeds it. -/
def utf8DecodeBytes (l : List Nat) : List Char := utf8DecodeAux l.length l

/-! ## SignatureValidator (`src/utils/signature.ts`) -/

/-- Whitespace recognised by JavaScript's `String.prototype.trim` (ASCII part;
the source only ever meets ASCII header values). -/
def isJsWhitespace (c : Char) : Bool :=
  c = ' ' ∨ c = '\t' ∨ c = '\n' ∨ c.toNat = 11 ∨ c.toNat = 12 ∨ c = '\r'

/-- JavaScript `String.prototype.trim` on a character sequence. -/
def trimChars (l : List Char) : List Char :=
  ((l.dropWhile isJsWhitespace).reverse.dropWhile isJsWhitespace).reverse

/-- ASCII lower-casing of one character, as the `i` regex flag compares letters. -/
def lowerAscii (c : Char) : Char :=
  if 'A' ≤ c ∧ c ≤ 'Z' then Char.ofNat (c.toNat + 32) else c

/-- The source's `signature.replace(/^sha256=/i, '')`: drops a leading
case-insensitive `sha256=` tag if present. -/
def dropSha256Tag (l : List Char) : List Char :=
  if (l.take 7).map lowerAscii = "sha256=".data then l.drop 7 else l

/-- `SignatureValidator.validateSignature(payload, signature)`.

`none` models an absent header; the empty string is falsy in JavaScript, so
both fail immediately.  The received value has the optional `sha256=` tag
stripped and is then trimmed; both it and the expected lower-case hex HMAC
digest are hex-decoded with Node's truncating decoder, a length mismatch is
an immediate `false`, and `crypto.timingSafeEqual` on equal-length buffers
decides byte equality. -/
def validateSignature (secret : String) (payload : List Nat) (signature : Option String) : Bool :=
  match signature with
  | none => false
  | some sig =>
    if sig.data = [] then false
    else
      let received := trimChars (dropSha256Tag sig.data)
      let expected := bytesToHex (hmacSha256 (utf8Bytes secret) payload)
      let receivedBuffer := hexDecodeChars received
      let expectedBuffer := hexDecodeChars expected
      if receivedBuffer.length ≠ expectedBuffer.length then false
      else receivedBuffer = expectedBuffer

/-- `SignatureValidator.validateTimestamp(timestamp, toleranceMinutes = 5)`.

`parseDate` stands for JavaScript's `new Date(timestamp).getTime()`: `none`
models `NaN` (every comparison with `NaN` is false, so the result is `false`
and no exception escapes).  `now` is `Date.now()`.  The source accepts when
`Math.abs(currentTime - webhookTime) <= toleranceMinutes * 60 * 1000`. -/
def validateTimestamp (parseDate : String → Option Int) (now : Int)
    (timestamp : String) (toleranceMinutes : Nat) : Bool :=
  match parseDate timestamp with
  | none => false
  | some webhookTime => (now - webhookTime).natAbs ≤ toleranceMinutes * 60 * 1000

/-! ## TokenGenerator (`src/utils/tokenGenerator.ts`) -/

/-- The base64url alphabet used by `Buffer.toString('base64url')`. -/
def b64Chars : List Char :=
  "ABCDEFGHIJKLMNOPQRSTUVWXYZabcdefghijklmnopqrstuvwxyz0123456789-_".data

/-- Character for a 6-bit value. -/
def b64Char (n : Nat) : Char := b64Chars.getD n 'A'

/-- Unpadded base64url encoding of a byte sequence (`toString('base64url')`). -/
def b64urlEncode : List Nat → List Char
  | b1 :: b2 :: b3 :: rest =>
    b64Char (b1 / 4) :: b64Char (b1 % 4 * 16 + b2 / 16) ::
      b64Char (b2 % 16 * 4 + b3 / 64) :: b64Char (b3 % 64) :: b64urlEncode rest
  | [b1, b2] => [b64Char (b1 / 4), b64Char (b1 % 4 * 16 + b2 / 16), b64Char (b2 % 16 * 4)]
  | [b1] => [b64Char (b1 / 4), b64Char (b1 % 4 * 16)]
  | [] => []

/-- Index of a base64url character. -/
def b64Val (c : Char) : Option Nat :=
  if 'A' ≤ c ∧ c ≤ 'Z' then some (c.toNat - 65)
  else if 'a' ≤ c ∧ c ≤ 'z' then some (c.toNat - 71)
  else if '0' ≤ c ∧ c ≤ '9' then some (c.toNat + 4)
  else if c = '-' then some 62
  else if c = '_' then some 63
  else none

/-- `Buffer.from(string, 'base64url')` on canonical unpadded base64url input,
which is the only input the source's round trip feeds it. -/
def b64urlDecode : List Char → List Nat
  | c1 :: c2 :: c3 :: c4 :: rest =>
    match b64Val c1, b64Val c2, b64Val c3, b64Val c4 with
    | some v1, some v2, some v3, some v4 =>
      (v1 * 4 + v2 / 16) :: (v2 % 16 * 16 + v3 / 4) :: (v3 % 4 * 64 + v4) :: b64urlDecode rest
    | _, _, _, _ => []
  | [c1, c2, c3] =>
    match b64Val c1, b64Val c2, b64Val c3 with
    | some v1, some v2, some v3 => [v1 * 4 + v2 / 16, v2 % 16 * 16 + v3 / 4]
    | _, _, _ => []
  | [c1, c2] =>
    match b64Val c1, b64Val c2 with
    | some v1, some v2 => [v1 * 4 + v2 / 16]
    | _, _ => []
  | _ => []

/-- JavaScript `token.split('.')`. -/
def splitOnDot : List Char → List (List Char)
  | [] => [[]]
  | c :: rest =>
    if c = '.' then [] :: splitOnDot rest
    else
      match splitOnDot rest with
      | [] => [[c]]
      | g :: gs => (c :: g) :: gs

/-- The `DonationToken` payload of `tokenGenerator.ts` (timestamps in ms). -/
structure DonationToken where
  orderId : String
  eventId : String
  timestamp : Nat
  exp : Nat
deriving DecidableEq

/-- Decimal digit characters of a natural number, with structural fuel so that
the definition evaluates inside the kernel. -/
def natDigitsAux : Nat → Nat → List Char → List Char
  | 0, _, acc => acc
  | fuel + 1, n, acc =>
    if n < 10 then Char.ofNat (48 + n) :: acc
    else natDigitsAux fuel (n / 10) (Char.ofNat (48 + n % 10) :: acc)

/-- Decimal representation of a natural number, as `JSON.stringify` prints the
integral millisecond timestamps the source uses. -/
def natDigits (n : Nat) : List Char := natDigitsAux (n + 1) n []

/-- One character of `JSON.stringify` string escaping. -/
def escapeJsonChar (c : Char) : List Char :=
  if c = '"' then ['\\', '"']
  else if c = '\\' then ['\\', '\\']
  else if c.toNat = 8 then ['\\', 'b']
  else if c.toNat = 9 then ['\\', 't']
  else if c.toNat = 10 then ['\\', 'n']
  else if c.toNat = 12 then ['\\', 'f']
  else if c.toNat = 13 then ['\\', 'r']
  else if c.toNat < 32 then ['\\', 'u', '0', '0', hexDigitChar (c.toNat / 16), hexDigitChar (c.toNat % 16)]
  else [c]

/-- `JSON.stringify` escaping of a string body. -/
def escapeJsonString (s : String) : List Char :=
  s.data.foldr (fun c acc => escapeJsonChar c ++ acc) []

/-- `JSON.stringify` of a `DonationToken`, with the property order of the
object literal in `generateDonationToken`. -/
def jsonStringifyToken (t : DonationToken) : List Char :=
  "\x7b\"orderId\":\"".data ++ escapeJsonString t.orderId ++
    "\",\"eventId\":\"".data ++ escapeJsonString t.eventId ++
    "\",\"timestamp\":".data ++ natDigits t.timestamp ++
    ",\"exp\":".data ++ natDigits t.exp ++ "\x7d".data

/-- Expect a literal prefix, returning the remaining input. -/
def parseLit : List Char → List Char → Option (List Char)
  | [], l => some l
  | p :: ps, c :: l => if c = p then parseLit ps l else none
  | _ :: _, [] => none

/-- JSON escape shorthand codes accepted after a backslash. -/
def unescapeCode (c : Char) : Option Char :=
  if c = '"' then some '"'
  else if c = '\\' then some '\\'
  else if c = '/' then some '/'
  else if c = 'b' then some (Char.ofNat 8)
  else if c = 't' then some (Char.ofNat 9)
  else if c = 'n' then some (Char.ofNat 10)
  else if c = 'f' then some (Char.ofNat 12)
  else if c = 'r' then some (Char.ofNat 13)
  else none

/-- Parse a JSON string body up to its closing quote, unescaping as
`JSON.parse` does; returns the content and the input after the quote. -/
def parseJsonStringBody : List Char → Option (List Char × List Char)
  | [] => none
  | c :: rest =>
    if c = '"' then some ([], rest)
    else if c = '\\' then
      match rest with
      | 'u' :: h1 :: h2 :: h3 :: h4 :: rest2 =>
        match hexVal h1, hexVal h2, hexVal h3, hexVal h4 with
        | some v1, some v2, some v3, some v4 =>
          (parseJsonStringBody rest2).map
            (fun pr => (Char.ofNat (((v1 * 16 + v2) * 16 + v3) * 16 + v4) :: pr.1, pr.2))
        | _, _, _, _ => none
      | e :: rest2 =>
        match unescapeCode e with
        | some c2 => (parseJsonStringBody rest2).map (fun pr => (c2 :: pr.1, pr.2))
        | none => none
      | [] => none
    else (parseJsonStringBody rest).map (fun pr => (c :: pr.1, pr.2))

/-- Accumulating decimal parser: consumes leading digit characters. -/
def parseDigits : List Char → Nat → Nat × List Char
  | c :: rest, acc =>
    if '0' ≤ c ∧ c ≤ '9' then parseDigits rest (acc * 10 + (c.toNat - 48)) else (acc, c :: rest)
  | [], acc => (acc, [])

/-- Parse a JSON natural number (at least one digit). -/
def parseJsonNat (l : List Char) : Option (Nat × List Char) :=
  match l with
  | c :: _ => if '0' ≤ c ∧ c ≤ '9' then some (parseDigits l 0) else none
  | [] => none

/-- `JSON.parse` restricted to the canonical serialized form of a
`DonationToken`, which is exactly what `validateToken` deserializes after the
detached-HMAC check has passed on an issued token. -/
def parseTokenJson (l : List Char) : Option DonationToken := do
  let r1 ← parseLit "\x7b\"orderId\":\"".data l
  let (oid, r2) ← parseJsonStringBody r1
  let r3 ← parseLit ",\"eventId\":\"".data r2
  let (eid, r4) ← parseJsonStringBody r3
  let r5 ← parseLit ",\"timestamp\":".data r4
  let (ts, r6) ← parseJsonNat r5
  let r7 ← parseLit ",\"exp\":".data r6
  let (ex, r8) ← parseJsonNat r7
  let r9 ← parseLit "\x7d".data r8
  if r9 = [] then some ⟨String.mk oid, String.mk eid, ts, ex⟩ else none

/-- `TokenGenerator.signPayload`: base64url-encoded HMAC-SHA256 of the UTF-8
bytes of the payload segment under the generator's secret. -/
def signPayload (secret : String) (payload : List Char) : List Char :=
  b64urlEncode (hmacSha256 (utf8Bytes secret) (utf8BytesOfChars payload))

/-- `TokenGenerator.generateDonationToken(orderId, eventId)` with `Date.now()`
passed in as `now`: payload `\x7borderId, eventId, timestamp: now, exp: now + 24h\x7d`
serialized, base64url-encoded, and joined to its detached signature by `.`. -/
def generateDonationToken (secret orderId eventId : String) (now : Nat) : List Char :=
  let payload : DonationToken := ⟨orderId, eventId, now, now + 24 * 60 * 60 * 1000⟩
  let encodedPayload := b64urlEncode (utf8BytesOfChars (jsonStringifyToken payload))
  encodedPayload ++ '.' :: signPayload secret encodedPayload

/-- `TokenGenerator.validateToken(token)` with `Date.now()` passed in as `now`.

`token.split('.')` destructures into the first two segments (segments past the
second are ignored).  With no separator the signature slot is `undefined` and
`Buffer.from(undefined)` throws, caught as `null`.  A signature mismatch —
including `crypto.timingSafeEqual` throwing on a length mismatch — yields
`null`, as does a payload that fails to deserialize; an expired token
(`Date.now() > payload.exp`) yields `null`. -/
def validateToken (secret : String) (token : List Char) (now : Nat) : Option DonationToken :=
  match splitOnDot token with
  | encodedPayload :: signature :: _ =>
    if signature = signPayload secret encodedPayload then
      match parseTokenJson (utf8DecodeBytes (b64urlDecode encodedPayload)) with
      | none => none
      | some payload => if payload.exp < now then none else some payload
    else none
  | _ => none

/-! ## WebhookHandler (`src/handlers/webhookHandler.ts`) -/

/-- Lifecycle status of a donation attempt.  The handler assigns
`PENDING_USER_ACTION`, `COMPLETED`, `DECLINED`, `CANCELLED` and `REFUNDED`;
`CONSENT_GIVEN` is declared in `src/types/index.ts` but never assigned. -/
inductive AttemptStatus
  | PENDING_USER_ACTION
  | CONSENT_GIVEN
  | COMPLETED
  | DECLINED
  | CANCELLED
  | REFUNDED
deriving DecidableEq

/-- `DonationAttempt` of `src/types/index.ts` (timestamps in ms; the monetary
amount is opaque data to this core and is carried as an integer). -/
structure DonationAttempt where
  id : String
  sympla_order_id : String
  sympla_event_id : String
  status : AttemptStatus
  donation_token : List Char
  created_at : Nat
  updated_at : Nat
  donor_name : String
  donor_email : String
  event_name : String
  order_amount : Int
deriving DecidableEq

/-- `SymplaOrderData` of `src/types/index.ts` (the fields the handler reads). -/
structure SymplaOrderData where
  order_identifier : String
  event_id : String
  event_name : String
  total_order_amount : Int
  buyer_first_name : String
  buyer_last_name : String
  buyer_email : String
deriving DecidableEq

/-- A parsed webhook payload.  `JSON.parse` enforces no schema, so the event
kind is an arbitrary string switched on by `processWebhook`. -/
structure SymplaWebhookPayload where
  event : String
  data : SymplaOrderData
deriving DecidableEq

/-- The handler's in-memory store: a JavaScript `Map` keyed by order
identifier, modelled as an association list in insertion order. -/
abbrev Store := List (String × DonationAttempt)

/-- `Map.prototype.set`: replaces the value at an existing key in place,
appends a new key at the end. -/
def mapSet : List (String × DonationAttempt) → String → DonationAttempt →
    List (String × DonationAttempt)
  | [], k, v => [(k, v)]
  | (k', v') :: rest, k, v =>
    if k' = k then (k, v) :: rest else (k', v') :: mapSet rest k v

/-- `Map.prototype.get`. -/
def mapGet : List (String × DonationAttempt) → String → Option DonationAttempt
  | [], _ => none
  | (k', v') :: rest, k => if k' = k then some v' else mapGet rest k

/-- `Array.from(map.values())`, as `getDonations` returns. -/
def mapValues (m : List (String × DonationAttempt)) : List DonationAttempt :=
  m.map (fun p => p.2)

/-- Per-request context: `Date.now()`, the `uuidv4()` draw, and whether the
`agroforestreeClient.createDonation` call resolves or rejects. -/
structure WebhookCtx where
  now : Nat
  uuid : String
  gatewaySucceeds : Bool

/-- `WebhookHandler.createDonationWithConsent`: calls the gateway; on success
the attempt is stored with status `COMPLETED`, on failure (caught, never
rethrown) it is stored with status `DECLINED`. -/
def createDonationWithConsent (ctx : WebhookCtx) (orderData : SymplaOrderData)
    (donationAttempt : DonationAttempt) (store : Store) : Store :=
  if ctx.gatewaySucceeds then
    mapSet store orderData.order_identifier
      { donationAttempt with status := .COMPLETED, updated_at := ctx.now }
  else
    mapSet store orderData.order_identifier
      { donationAttempt with status := .DECLINED, updated_at := ctx.now }

/-- `WebhookHandler.handleOrderApproved`: stores a fresh `PENDING_USER_ACTION`
attempt (with an issued donation token) under the order identifier, then
immediately runs `createDonationWithConsent`. -/
def handleOrderApproved (secret : String) (ctx : WebhookCtx)
    (orderData : SymplaOrderData) (store : Store) : Store :=
  let donationAttempt : DonationAttempt :=
    ⟨ctx.uuid, orderData.order_identifier, orderData.event_id, .PENDING_USER_ACTION,
     generateDonationToken secret orderData.order_identifier orderData.event_id ctx.now,
     ctx.now, ctx.now,
     orderData.buyer_first_name ++ " " ++ orderData.buyer_last_name,
     orderData.buyer_email, orderData.event_name, orderData.total_order_amount⟩
  createDonationWithConsent ctx orderData donationAttempt
    (mapSet store orderData.order_identifier donationAttempt)

/-- `WebhookHandler.handleOrderCancelled`: overwrites the status of an existing
attempt with `CANCELLED` (whatever it was), or creates a fresh `CANCELLED`
attempt with an empty token for an unseen order identifier. -/
def handleOrderCancelled (ctx : WebhookCtx) (orderData : SymplaOrderData)
    (store : Store) : Store :=
  match mapGet store orderData.order_identifier with
  | some existingAttempt =>
    mapSet store orderData.order_identifier
      { existingAttempt with status := .CANCELLED, updated_at := ctx.now }
  | none =>
    mapSet store orderData.order_identifier
      ⟨ctx.uuid, orderData.order_identifier, orderData.event_id, .CANCELLED, [],
       ctx.now, ctx.now,
       orderData.buyer_first_name ++ " " ++ orderData.buyer_last_name,
       orderData.buyer_email, orderData.event_name, orderData.total_order_amount⟩

/-- `WebhookHandler.handleOrderRefunded`: overwrites the status of an existing
attempt with `REFUNDED` (whatever it was), or creates a fresh `REFUNDED`
attempt with a `token_${Date.now()}` placeholder token. -/
def handleOrderRefunded (ctx : WebhookCtx) (orderData : SymplaOrderData)
    (store : Store) : Store :=
  match mapGet store orderData.order_identifier with
  | some existingAttempt =>
    mapSet store orderData.order_identifier
      { existingAttempt with status := .REFUNDED, updated_at := ctx.now }
  | none =>
    mapSet store orderData.order_identifier
      ⟨ctx.uuid, orderData.order_identifier, orderData.event_id, .REFUNDED,
       "token_".data ++ natDigits ctx.now,
       ctx.now, ctx.now,
       orderData.buyer_first_name ++ " " ++ orderData.buyer_last_name,
       orderData.buyer_email, orderData.event_name, orderData.total_order_amount⟩

/-- Step 3 of `processWebhook`: the `switch (payload.event)` routing.
`order.created` and unrecognized kinds only log and leave the store alone. -/
def dispatchEvent (secret : String) (ctx : WebhookCtx)
    (payload : SymplaWebhookPayload) (store : Store) : Store :=
  if payload.event = "order.approved" then handleOrderApproved secret ctx payload.data store
  else if payload.event = "order.cancelled" then handleOrderCancelled ctx payload.data store
  else if payload.event = "order.refunded" then handleOrderRefunded ctx payload.data store
  else store

/-- Body of a webhook HTTP response, paired with its status code below. -/
inductive WebhookResponse
  | invalidSignature (received : Option String)
  | success (status message : String) (timestamp : Nat)
  | internalError
deriving DecidableEq

/-- `WebhookHandler.processWebhook`.

`parseBody` stands for `JSON.parse(req.body.toString())` on the raw bytes:
`none` models a parse (or shape) failure, which the surrounding `try/catch`
turns into a 500.  An invalid or missing `x-sympla-signature` header yields a
401 before any state is touched; otherwise the event is dispatched and the
fixed success acknowledgment is returned with `new Date().toISOString()`
(modelled by the millisecond clock `ctx.now`). -/
def processWebhook (secret : String) (parseBody : List Nat → Option SymplaWebhookPayload)
    (ctx : WebhookCtx) (body : List Nat) (signatureHeader : Option String)
    (store : Store) : (Nat × WebhookResponse) × Store :=
  if validateSignature secret body signatureHeader = false then
    ((401, .invalidSignature signatureHeader), store)
  else
    match parseBody body with
    | none => ((500, .internalError), store)
    | some payload =>
      ((200, .success "success" "Webhook processado com sucesso" ctx.now),
       dispatchEvent secret ctx payload store)

/-- `WebhookHandler.getDonations`. -/
def getDonations (store : Store) : List DonationAttempt := mapValues store

/-- Number of entries a store holds for one order identifier. -/
def countKey (store : Store) (k : String) : Nat :=
  List.countP (fun p => p.1 = k) store

/-- Runs a sequence of webhook dispatches against a store, one request
context per event. -/
def runEvents (secret : String) (events : List (WebhookCtx × SymplaWebhookPayload))
    (store : Store) : Store :=
  events.foldl (fun st e => dispatchEvent secret e.1 e.2 st) store

/-- Body of `escapeJsonString` on a raw character list. -/
def escapeChars (l : List Char) : List Char :=
  l.foldr (fun c acc => escapeJsonChar c ++ acc) []

/-- Reference decimal-digits function (recursion on the value); used to reason
about the fuelled `natDigits`. -/
def natDigitsWF (n : Nat) : List Char :=
  if h : n < 10 then [Char.ofNat (48 + n)]
  else natDigitsWF (n / 10) ++ [Char.ofNat (48 + n % 10)]
decreasing_by exact Nat.div_lt_self (by omega) (by omega)

/-! ## Store lemmas -/

theorem mapGet_mapSet_self (m : Store) (k : String) (v : DonationAttempt) :
    mapGet (mapSet m k v) k = some v := by
  induction m with
  | nil => simp [mapSet, mapGet]
  | cons p rest ih =>
    by_cases h : p.1 = k
    · simp [mapSet, mapGet, h]
    · simp [mapSet, mapGet, h, ih]

theorem countKey_mapSet (m : Store) (k : String) (v : DonationAttempt) :
    countKey (mapSet m k v) k = if countKey m k = 0 then 1 else countKey m k := by
  induction m with
  | nil => simp [mapSet, countKey]
  | cons p rest ih =>
    by_cases h : p.1 = k
    · simp [mapSet, countKey, h, List.countP_cons]
    · simp only [mapSet, countKey, h, if_false, List.countP_cons, decide_eq_true_eq] at *
      simp [h, ih]

theorem countKey_mapSet_ne (m : Store) (k k' : String) (v : DonationAttempt)
    (h : k' ≠ k) : countKey (mapSet m k v) k' = countKey m k' := by
  induction m with
  | nil => simp [mapSet, countKey, List.countP_cons, h, Ne.symm h]
  | cons p rest ih =>
    by_cases hp : p.1 = k
    · simp [mapSet, countKey, hp, List.countP_cons, Ne.symm h] at *
    · simp only [mapSet, countKey, hp, if_false, List.countP_cons] at *
      simp [ih]

theorem countKey_zero_of_get_none (m : Store) (k : String)
    (h : mapGet m k = none) : countKey m k = 0 := by
  induction m with
  | nil => simp [countKey]
  | cons p rest ih =>
    by_cases hp : p.1 = k
    · simp [mapGet, hp] at h
    · simp only [mapGet, hp, if_false] at h
      have hrest := ih h
      simp only [countKey, List.countP_cons] at hrest ⊢
      simp [hp, hrest]

theorem storeOk_mapSet (m : Store) (k : String) (v : DonationAttempt)
    (h : ∀ k', countKey m k' ≤ 1) : ∀ k', countKey (mapSet m k v) k' ≤ 1 := by
  intro k'
  by_cases hk : k' = k
  · subst hk
    rw [countKey_mapSet]
    by_cases h0 : countKey m k' = 0 <;> simp [h0, h k']
  · rw [countKey_mapSet_ne m k k' v hk]
    exact h k'

theorem storeOk_dispatch (secret : String) (ctx : WebhookCtx)
    (payload : SymplaWebhookPayload) (m : Store)
    (h : ∀ k', countKey m k' ≤ 1) : ∀ k', countKey (dispatchEvent secret ctx payload m) k' ≤ 1 := by
  unfold dispatchEvent handleOrderApproved createDonationWithConsent
    handleOrderCancelled handleOrderRefunded
  repeat' split
  all_goals first
    | exact h
    | exact storeOk_mapSet _ _ _ h
    | exact storeOk_mapSet _ _ _ (storeOk_mapSet _ _ _ h)

theorem storeOk_runEvents (secret : String)
    (events : List (WebhookCtx × SymplaWebhookPayload)) (m : Store)
    (h : ∀ k', countKey m k' ≤ 1) : ∀ k', countKey (runEvents secret events m) k' ≤ 1 := by
  induction events generalizing m with
  | nil => exact h
  | cons e rest ih =>
    exact ih (dispatchEvent secret e.1 e.2 m) (storeOk_dispatch secret e.1 e.2 m h)

/-! ## Claims about the webhook state machine -/

/-- C2: whenever signature verification fails, `processWebhook` answers
401 Unauthorized with the `Invalid signature` body and returns the store
exactly as it was — no attempt is created or updated. -/
theorem c2_invalid_signature_401_no_mutation
    (secret : String) (parseBody : List Nat → Option SymplaWebhookPayload)
    (ctx : WebhookCtx) (body : List Nat) (sig : Option String) (store : Store)
    (h : validateSignature secret body sig = false) :
    processWebhook secret parseBody ctx body sig store =
      ((401, .invalidSignature sig), store) := by
  simp [processWebhook, h]

/-- C3: dispatching an `order.approved` event for an order identifier that is
not yet in the store leaves exactly one attempt stored under that identifier,
with status `COMPLETED` when the gateway call succeeds and `DECLINED` when it
fails. -/
theorem c3_fresh_approval_single_attempt
    (secret : String) (ctx : WebhookCtx) (orderData : SymplaOrderData) (store : Store)
    (hfresh : mapGet store orderData.order_identifier = none) :
    countKey (dispatchEvent secret ctx ⟨"order.approved", orderData⟩ store)
        orderData.order_identifier = 1 ∧
    (mapGet (dispatchEvent secret ctx ⟨"order.approved", orderData⟩ store)
        orderData.order_identifier).map (fun a => a.status) =
      some (if ctx.gatewaySucceeds then .COMPLETED else .DECLINED) := by
  have h0 := countKey_zero_of_get_none store orderData.order_identifier hfresh
  constructor
  · cases hg : ctx.gatewaySucceeds <;>
      · simp only [dispatchEvent, handleOrderApproved, createDonationWithConsent, hg,
          Bool.false_eq_true, if_false, if_true, reduceIte]
        rw [countKey_mapSet, countKey_mapSet, h0]
        simp
  · cases hg : ctx.gatewaySucceeds <;>
      simp [dispatchEvent, handleOrderApproved, createDonationWithConsent, hg,
        mapGet_mapSet_self]

/-- C4: once the signature verifies and the payload parses, `processWebhook`
returns the 200 success acknowledgment `(status, message, timestamp)` no
matter what the dispatch does — in particular when the gateway call fails the
failure is recorded on the stored attempt as `DECLINED` and is not surfaced to
the webhook caller. -/
theorem c4_success_ack_even_on_gateway_failure
    (secret : String) (parseBody : List Nat → Option SymplaWebhookPayload)
    (ctx : WebhookCtx) (body : List Nat) (sig : Option String) (store : Store)
    (payload : SymplaWebhookPayload)
    (hsig : validateSignature secret body sig = true)
    (hparse : parseBody body = some payload) :
    (processWebhook secret parseBody ctx body sig store).1 =
      (200, .success "success" "Webhook processado com sucesso" ctx.now) ∧
    (payload.event = "order.approved" → ctx.gatewaySucceeds = false →
      (mapGet (processWebhook secret parseBody ctx body sig store).2
          payload.data.order_identifier).map (fun a => a.status) =
        some .DECLINED) := by
  constructor
  · simp [processWebhook, hsig, hparse]
  · intro hev hg
    simp [processWebhook, hsig, hparse, dispatchEvent, hev,
      handleOrderApproved, createDonationWithConsent, hg, mapGet_mapSet_self]

/-- C5: two `order.approved` events for the same order identifier leave
exactly one stored attempt (`getDonations` has length 1, not 2), and more
generally, after any sequence of webhook events the store holds at most one
attempt per order identifier. -/
theorem c5_at_most_one_attempt_per_order
    (secret : String) (ctx1 ctx2 : WebhookCtx) (orderData : SymplaOrderData)
    (events : List (WebhookCtx × SymplaWebhookPayload)) (k : String) :
    (getDonations (dispatchEvent secret ctx2 ⟨"order.approved", orderData⟩
        (dispatchEvent secret ctx1 ⟨"order.approved", orderData⟩ []))).length = 1 ∧
    countKey (runEvents secret events []) k ≤ 1 := by
  constructor
  · by_cases h1 : ctx1.gatewaySucceeds <;> by_cases h2 : ctx2.gatewaySucceeds <;>
      simp [dispatchEvent, handleOrderApproved, createDonationWithConsent,
        h1, h2, mapSet, getDonations, mapValues]
  · exact storeOk_runEvents secret events [] (fun k' => by simp [countKey]) k

/-- C9 as amended: the four non-initial states are not all terminal — an
`order.cancelled` or `order.refunded` event overwrites the status of an
existing attempt (whatever it was, `COMPLETED` included) with `CANCELLED`
resp. `REFUNDED`; only `order.created` and unrecognized event kinds leave the
store untouched. -/
theorem c9_cancel_refund_overwrite_terminal_states
    (ctx : WebhookCtx) (orderData : SymplaOrderData) (store : Store)
    (a : DonationAttempt)
    (h : mapGet store orderData.order_identifier = some a) :
    (mapGet (handleOrderCancelled ctx orderData store)
        orderData.order_identifier).map (fun x => x.status) = some .CANCELLED ∧
    (mapGet (handleOrderRefunded ctx orderData store)
        orderData.order_identifier).map (fun x => x.status) = some .REFUNDED ∧
    (∀ (secret ev : String), ev ≠ "order.approved" → ev ≠ "order.cancelled" →
      ev ≠ "order.refunded" →
      dispatchEvent secret ctx ⟨ev, orderData⟩ store = store) := by
  refine ⟨?_, ?_, ?_⟩
  · simp [handleOrderCancelled, h, mapGet_mapSet_self]
  · simp [handleOrderRefunded, h, mapGet_mapSet_self]
  · intro secret ev h1 h2 h3
    simp [dispatchEvent, h1, h2, h3]

/-- C9 counterexample: an `order.cancelled` event arriving after an attempt
reached `COMPLETED` does change its status (to `CANCELLED`), refuting the
claim that `COMPLETED` is terminal. -/
theorem c9_counterexample_completed_then_cancelled :
    (mapGet (dispatchEvent "s" ⟨0, "u1", true⟩
        ⟨"order.approved", ⟨"SPL-1", "EVT-1", "Show", 100, "Ana", "Dias", "a@b.c"⟩⟩ [])
        "SPL-1").map (fun a => a.status) = some .COMPLETED ∧
    (mapGet (dispatchEvent "s" ⟨1, "u2", true⟩
        ⟨"order.cancelled", ⟨"SPL-1", "EVT-1", "Show", 100, "Ana", "Dias", "a@b.c"⟩⟩
        (dispatchEvent "s" ⟨0, "u1", true⟩
          ⟨"order.approved", ⟨"SPL-1", "EVT-1", "Show", 100, "Ana", "Dias", "a@b.c"⟩⟩ []))
        "SPL-1").map (fun a => a.status) = some .CANCELLED := by
  exact ⟨rfl, rfl⟩

set_option maxRecDepth 1000000 in
/-- Witness for C2: a body signed with secret `"b"` but verified with secret
`"a"` fails verification, and `processWebhook` answers 401 while the initially
empty store remains empty. -/
theorem c2_witness_different_secret :
    validateSignature "a" [120]
      (some (String.mk (bytesToHex (hmacSha256 (utf8Bytes "b") [120])))) = false ∧
    processWebhook "a" (fun _ => none) ⟨0, "u", true⟩ [120]
      (some (String.mk (bytesToHex (hmacSha256 (utf8Bytes "b") [120])))) [] =
      ((401, .invalidSignature
        (some (String.mk (bytesToHex (hmacSha256 (utf8Bytes "b") [120]))))), []) := by
  have h : validateSignature "a" [120]
      (some (String.mk (bytesToHex (hmacSha256 (utf8Bytes "b") [120])))) = false := by decide
  exact ⟨h, c2_invalid_signature_401_no_mutation "a" (fun _ => none) ⟨0, "u", true⟩ [120] _ [] h⟩

/-- Witness for C3: a fresh `order.approved` with a succeeding gateway leaves
one `COMPLETED` attempt under its order identifier. -/
theorem c3_witness_fresh_approval :
    mapGet ([] : Store) "SPL-1" = none ∧
    countKey (dispatchEvent "s" ⟨0, "u", true⟩
        ⟨"order.approved", ⟨"SPL-1", "EVT-1", "Show", 100, "Ana", "Dias", "a@b.c"⟩⟩ [])
      "SPL-1" = 1 ∧
    (mapGet (dispatchEvent "s" ⟨0, "u", true⟩
        ⟨"order.approved", ⟨"SPL-1", "EVT-1", "Show", 100, "Ana", "Dias", "a@b.c"⟩⟩ [])
        "SPL-1").map (fun a => a.status) = some .COMPLETED := by
  have h := c3_fresh_approval_single_attempt "s" ⟨0, "u", true⟩
    ⟨"SPL-1", "EVT-1", "Show", 100, "Ana", "Dias", "a@b.c"⟩ [] rfl
  exact ⟨rfl, h.1, h.2⟩

set_option maxRecDepth 1000000 in
/-- Witness for C4: with a correctly signed body and a parsing payload whose
gateway call fails, the caller still gets the 200 acknowledgment and the
stored attempt is `DECLINED`. -/
theorem c4_witness_gateway_failure :
    validateSignature "s" [120]
      (some (String.mk (bytesToHex (hmacSha256 (utf8Bytes "s") [120])))) = true ∧
    (fun (_ : List Nat) =>
        some (⟨"order.approved", ⟨"SPL-1", "EVT-1", "Show", 100, "Ana", "Dias", "a@b.c"⟩⟩ :
          SymplaWebhookPayload)) [120] =
      some ⟨"order.approved", ⟨"SPL-1", "EVT-1", "Show", 100, "Ana", "Dias", "a@b.c"⟩⟩ ∧
    (processWebhook "s"
        (fun _ => some ⟨"order.approved", ⟨"SPL-1", "EVT-1", "Show", 100, "Ana", "Dias", "a@b.c"⟩⟩)
        ⟨7, "u", false⟩ [120]
        (some (String.mk (bytesToHex (hmacSha256 (utf8Bytes "s") [120])))) []).1 =
      (200, .success "success" "Webhook processado com sucesso" 7) ∧
    (mapGet (processWebhook "s"
        (fun _ => some ⟨"order.approved", ⟨"SPL-1", "EVT-1", "Show", 100, "Ana", "Dias", "a@b.c"⟩⟩)
        ⟨7, "u", false⟩ [120]
        (some (String.mk (bytesToHex (hmacSha256 (utf8Bytes "s") [120])))) []).2
        "SPL-1").map (fun a => a.status) = some .DECLINED := by
  have hsig : validateSignature "s" [120]
      (some (String.mk (bytesToHex (hmacSha256 (utf8Bytes "s") [120])))) = true := by decide
  have h := c4_success_ack_even_on_gateway_failure "s"
    (fun _ => some ⟨"order.approved", ⟨"SPL-1", "EVT-1", "Show", 100, "Ana", "Dias", "a@b.c"⟩⟩)
    ⟨7, "u", false⟩ [120]
    (some (String.mk (bytesToHex (hmacSha256 (utf8Bytes "s") [120])))) []
    ⟨"order.approved", ⟨"SPL-1", "EVT-1", "Show", 100, "Ana", "Dias", "a@b.c"⟩⟩ hsig rfl
  exact ⟨hsig, rfl, h.1, h.2 rfl rfl⟩

/-- Witness for C9: on a store holding a `COMPLETED` attempt, cancel and
refund events overwrite the status, and an `order.created` event leaves the
store unchanged. -/
theorem c9_witness_overwrite :
    mapGet [("SPL-1", ⟨"id", "SPL-1", "EVT-1", .COMPLETED, [], 0, 0, "n", "e", "ev", 0⟩)]
      "SPL-1" = some ⟨"id", "SPL-1", "EVT-1", .COMPLETED, [], 0, 0, "n", "e", "ev", 0⟩ ∧
    (mapGet (handleOrderCancelled ⟨1, "u", true⟩
        ⟨"SPL-1", "EVT-1", "Show", 100, "Ana", "Dias", "a@b.c"⟩
        [("SPL-1", ⟨"id", "SPL-1", "EVT-1", .COMPLETED, [], 0, 0, "n", "e", "ev", 0⟩)])
        "SPL-1").map (fun x => x.status) = some .CANCELLED ∧
    (mapGet (handleOrderRefunded ⟨1, "u", true⟩
        ⟨"SPL-1", "EVT-1", "Show", 100, "Ana", "Dias", "a@b.c"⟩
        [("SPL-1", ⟨"id", "SPL-1", "EVT-1", .COMPLETED, [], 0, 0, "n", "e", "ev", 0⟩)])
        "SPL-1").map (fun x => x.status) = some .REFUNDED ∧
    dispatchEvent "s" ⟨1, "u", true⟩
        ⟨"order.created", ⟨"SPL-1", "EVT-1", "Show", 100, "Ana", "Dias", "a@b.c"⟩⟩
        [("SPL-1", ⟨"id", "SPL-1", "EVT-1", .COMPLETED, [], 0, 0, "n", "e", "ev", 0⟩)] =
      [("SPL-1", ⟨"id", "SPL-1", "EVT-1", .COMPLETED, [], 0, 0, "n", "e", "ev", 0⟩)] := by
  have h := c9_cancel_refund_overwrite_terminal_states ⟨1, "u", true⟩
    ⟨"SPL-1", "EVT-1", "Show", 100, "Ana", "Dias", "a@b.c"⟩
    [("SPL-1", ⟨"id", "SPL-1", "EVT-1", .COMPLETED, [], 0, 0, "n", "e", "ev", 0⟩)]
    ⟨"id", "SPL-1", "EVT-1", .COMPLETED, [], 0, 0, "n", "e", "ev", 0⟩ rfl
  exact ⟨rfl, h.1, h.2.1, h.2.2 "s" "order.created" (by decide) (by decide) (by decide)⟩

/-! ## Hex, digest and trim lemmas -/

theorem bytesToHex_cons (b : Nat) (l : List Nat) :
    bytesToHex (b :: l) = hexDigitChar (b / 16) :: hexDigitChar (b % 16) :: bytesToHex l := rfl

theorem hexVal_hexDigitChar : ∀ m < 16, hexVal (hexDigitChar m) = some m := by decide

theorem hexDigitChar_not_ws : ∀ m < 16, isJsWhitespace (hexDigitChar m) = false := by decide

theorem hexDigitChar_lower_ne_s : ∀ m < 16, lowerAscii (hexDigitChar m) ≠ 's' := by decide

theorem hexDecode_bytesToHex_append (l : List Nat) (junk : List Char)
    (h : ∀ b ∈ l, b < 256) :
    hexDecodeChars (bytesToHex l ++ junk) = l ++ hexDecodeChars junk := by
  induction l with
  | nil => simp [bytesToHex]
  | cons b rest ih =>
    have hb : b < 256 := h b (by simp)
    have h1 := hexVal_hexDigitChar (b / 16) (by omega)
    have h2 := hexVal_hexDigitChar (b % 16) (by omega)
    rw [bytesToHex_cons, List.cons_append, List.cons_append]
    simp only [hexDecodeChars, h1, h2]
    rw [ih (fun x hx => h x (by simp [hx]))]
    congr 1
    omega

theorem hexDecode_bytesToHex (l : List Nat) (h : ∀ b ∈ l, b < 256) :
    hexDecodeChars (bytesToHex l) = l := by
  have := hexDecode_bytesToHex_append l [] h
  simpa [hexDecodeChars] using this

theorem hexDecode_head_bad (c : Char) (rest : List Char) (h : hexVal c = none) :
    hexDecodeChars (c :: rest) = [] := by
  cases rest with
  | nil => rfl
  | cons c2 r => simp [hexDecodeChars, h]

theorem beBytes_mem_lt (n v : Nat) : ∀ b ∈ beBytes n v, b < 256 := by
  intro b hb
  simp only [beBytes, List.mem_map, List.mem_range] at hb
  obtain ⟨i, _, rfl⟩ := hb
  exact Nat.mod_lt _ (by norm_num)

theorem beBytes_length (n v : Nat) : (beBytes n v).length = n := by
  simp [beBytes]

theorem sha256Compress_length (hs block : List Nat) : (sha256Compress hs block).length = 8 := rfl

theorem foldl_compress_length (bs : List (List Nat)) (hs : List Nat) (h : hs.length = 8) :
    (bs.foldl sha256Compress hs).length = 8 := by
  induction bs generalizing hs with
  | nil => exact h
  | cons b rest ih => exact ih _ (sha256Compress_length _ _)

theorem foldr_beBytes_length (hs : List Nat) :
    (hs.foldr (fun w acc => beBytes 4 w ++ acc) []).length = 4 * hs.length := by
  induction hs with
  | nil => rfl
  | cons w rest ih => simp [List.length_append, beBytes_length, ih]; omega

theorem foldr_beBytes_mem (hs : List Nat) :
    ∀ b ∈ hs.foldr (fun w acc => beBytes 4 w ++ acc) [], b < 256 := by
  induction hs with
  | nil => simp
  | cons w rest ih =>
    intro b hb
    rcases List.mem_append.mp hb with h | h
    · exact beBytes_mem_lt 4 w b h
    · exact ih b h

theorem sha256_length (msg : List Nat) : (sha256 msg).length = 32 := by
  simp only [sha256]
  rw [foldr_beBytes_length, foldl_compress_length (blocks64 (sha256Pad msg)) sha256H0 (by rfl)]

theorem sha256_mem_lt (msg : List Nat) : ∀ b ∈ sha256 msg, b < 256 := by
  simp only [sha256]
  exact foldr_beBytes_mem _

theorem hmacSha256_length (key msg : List Nat) : (hmacSha256 key msg).length = 32 := by
  simp only [hmacSha256]
  exact sha256_length _

theorem hmacSha256_mem_lt (key msg : List Nat) : ∀ b ∈ hmacSha256 key msg, b < 256 := by
  simp only [hmacSha256]
  exact sha256_mem_lt _

theorem bytesToHex_length (l : List Nat) : (bytesToHex l).length = 2 * l.length := by
  induction l with
  | nil => rfl
  | cons b rest ih => rw [bytesToHex_cons]; simp [ih]; omega

theorem bytesToHex_mem (l : List Nat) (h : ∀ b ∈ l, b < 256) :
    ∀ c ∈ bytesToHex l, ∃ m, m < 16 ∧ c = hexDigitChar m := by
  induction l with
  | nil => simp [bytesToHex]
  | cons b rest ih =>
    have hb : b < 256 := h b (by simp)
    intro c hc
    rw [bytesToHex_cons, List.mem_cons, List.mem_cons] at hc
    rcases hc with hc | hc | hc
    · exact ⟨b / 16, by omega, hc⟩
    · exact ⟨b % 16, by omega, hc⟩
    · exact ih (fun x hx => h x (by simp [hx])) c hc

theorem dropWhile_append_all (p : Char → Bool) (a b : List Char)
    (h : ∀ c ∈ a, p c = true) :
    List.dropWhile p (a ++ b) = List.dropWhile p b := by
  induction a with
  | nil => rfl
  | cons c t ih =>
    rw [List.cons_append, List.dropWhile_cons, h c (by simp)]
    exact ih (fun x hx => h x (by simp [hx]))

theorem dropWhile_eq_self_all (p : Char → Bool) (l : List Char)
    (h : ∀ c ∈ l, p c = false) : List.dropWhile p l = l := by
  cases l with
  | nil => rfl
  | cons c t => rw [List.dropWhile_cons, h c (by simp)]; simp

theorem trim_sandwich (ws1 ws2 mid : List Char)
    (h1 : ∀ c ∈ ws1, isJsWhitespace c = true) (h2 : ∀ c ∈ ws2, isJsWhitespace c = true)
    (hm : ∀ c ∈ mid, isJsWhitespace c = false) (hne : mid ≠ []) :
    trimChars (ws1 ++ mid ++ ws2) = mid := by
  obtain ⟨m0, mrest, rfl⟩ : ∃ m0 mrest, mid = m0 :: mrest := by
    cases mid with
    | nil => exact absurd rfl hne
    | cons m0 mrest => exact ⟨m0, mrest, rfl⟩
  unfold trimChars
  rw [List.append_assoc, dropWhile_append_all _ _ _ h1, List.cons_append,
    List.dropWhile_cons, hm m0 (by simp)]
  simp only [Bool.false_eq_true, if_false]
  rw [← List.cons_append, List.reverse_append,
    dropWhile_append_all _ _ _ (fun c hc => h2 c (List.mem_reverse.mp hc)),
    dropWhile_eq_self_all _ _ (fun c hc => hm c (List.mem_reverse.mp hc)),
    List.reverse_reverse]

theorem ws_lower_ne_s (c : Char) (h : isJsWhitespace c = true) : lowerAscii c ≠ 's' := by
  have hval : c = ' ' ∨ c = '\t' ∨ c = '\n' ∨ c = Char.ofNat 11 ∨ c = Char.ofNat 12 ∨ c = '\r' := by
    simp only [isJsWhitespace, decide_eq_true_eq] at h
    rcases h with h | h | h | h | h | h
    · exact Or.inl h
    · exact Or.inr (Or.inl h)
    · exact Or.inr (Or.inr (Or.inl h))
    · exact Or.inr (Or.inr (Or.inr (Or.inl (by rw [← Char.ofNat_toNat c, h]))))
    · exact Or.inr (Or.inr (Or.inr (Or.inr (Or.inl (by rw [← Char.ofNat_toNat c, h])))))
    · exact Or.inr (Or.inr (Or.inr (Or.inr (Or.inr h))))
  rcases hval with rfl | rfl | rfl | rfl | rfl | rfl <;> decide

theorem dropSha256Tag_tag (tag r : List Char) (h : tag.map lowerAscii = "sha256=".data) :
    dropSha256Tag (tag ++ r) = r := by
  have hlen : tag.length = 7 := by
    have hl := congrArg List.length h
    simpa using hl
  unfold dropSha256Tag
  rw [List.take_left' hlen, h, if_pos rfl, List.drop_left' hlen]

theorem dropSha256Tag_of_head (c : Char) (t : List Char) (h : lowerAscii c ≠ 's') :
    dropSha256Tag (c :: t) = c :: t := by
  unfold dropSha256Tag
  rw [if_neg]
  intro heq
  rw [List.take_succ_cons, List.map_cons] at heq
  have hs : "sha256=".data = 's' :: "ha256=".data := rfl
  rw [hs] at heq
  exact h (List.cons.injEq _ _ _ _ ▸ heq).1

/-- Value of `validateSignature` on a header consisting of an optional
case-insensitive `sha256=` tag followed by the hex HMAC digest of `P`
surrounded by whitespace, checked against an arbitrary payload `Q`. -/
theorem validateSignature_value (secret : String) (P Q : List Nat)
    (tag ws1 ws2 : List Char)
    (htag : tag = [] ∨ tag.map lowerAscii = "sha256=".data)
    (h1 : ∀ c ∈ ws1, isJsWhitespace c = true)
    (h2 : ∀ c ∈ ws2, isJsWhitespace c = true) :
    validateSignature secret Q
      (some (String.mk (tag ++ ws1 ++ bytesToHex (hmacSha256 (utf8Bytes secret) P) ++ ws2))) =
      decide (hmacSha256 (utf8Bytes secret) P = hmacSha256 (utf8Bytes secret) Q) := by
  set hex := bytesToHex (hmacSha256 (utf8Bytes secret) P) with hhex
  have hexmem : ∀ c ∈ hex, ∃ m, m < 16 ∧ c = hexDigitChar m :=
    bytesToHex_mem _ (hmacSha256_mem_lt _ _)
  have hexlen : hex.length = 64 := by
    rw [hhex, bytesToHex_length, hmacSha256_length]
  have hexne : hex ≠ [] := by
    intro h0
    rw [h0] at hexlen
    simp at hexlen
  have hexnws : ∀ c ∈ hex, isJsWhitespace c = false := by
    intro c hc
    obtain ⟨m, hm, rfl⟩ := hexmem c hc
    exact hexDigitChar_not_ws m hm
  have hne : tag ++ ws1 ++ hex ++ ws2 ≠ [] := by
    intro h0
    rcases List.append_eq_nil.mp h0 with ⟨h0l, h0r⟩
    rcases List.append_eq_nil.mp h0l with ⟨h0ll, h0lr⟩
    exact hexne h0lr
  have hdrop : dropSha256Tag (tag ++ ws1 ++ hex ++ ws2) = ws1 ++ hex ++ ws2 := by
    rcases htag with rfl | htag
    · rw [List.nil_append]
      cases hws1 : ws1 with
      | nil =>
        rw [hws1] at *
        rw [List.nil_append]
        cases hhex2 : hex with
        | nil => exact absurd hhex2 hexne
        | cons hc ht =>
          obtain ⟨m, hm, hcm⟩ := hexmem hc (by rw [hhex2]; simp)
          rw [List.cons_append]
          rw [dropSha256Tag_of_head _ _ (hcm ▸ hexDigitChar_lower_ne_s m hm)]
      | cons w wt =>
        rw [List.cons_append, List.cons_append,
          dropSha256Tag_of_head _ _ (ws_lower_ne_s w (h1 w (by rw [hws1]; simp)))]
    · rw [List.append_assoc, List.append_assoc, dropSha256Tag_tag _ _ htag,
        ← List.append_assoc]
  simp only [validateSignature]
  rw [if_neg hne, hdrop, trim_sandwich ws1 ws2 hex h1 h2 hexnws hexne, hhex,
    hexDecode_bytesToHex _ (hmacSha256_mem_lt _ _),
    hexDecode_bytesToHex _ (hmacSha256_mem_lt _ _)]
  rw [if_neg (by rw [hmacSha256_length, hmacSha256_length]; simp)]

/-! ## Claims about the signature verifier -/

/-- C1 as amended: whitespace is only trimmed after the prefix is stripped, so
the case-insensitive `sha256=` tag (when present) must come first; for every
payload `P` and secret `S`, `validateSignature` accepts the hex HMAC-SHA256
digest of `P` with an optional leading tag and whitespace around the digest
after the tag, and it rejects the same header for every payload `Q` whose
HMAC-SHA256 digest under `S` differs from that of `P` — in particular for any
single-byte mutation of `P` that changes the digest. -/
theorem c1_signature_accepts_digest_rejects_changed_digest
    (S : String) (P : List Nat) (tag ws1 ws2 : List Char)
    (htag : tag = [] ∨ tag.map lowerAscii = "sha256=".data)
    (h1 : ∀ c ∈ ws1, isJsWhitespace c = true)
    (h2 : ∀ c ∈ ws2, isJsWhitespace c = true) :
    validateSignature S P
      (some (String.mk (tag ++ ws1 ++ bytesToHex (hmacSha256 (utf8Bytes S) P) ++ ws2))) = true ∧
    (∀ Q : List Nat, hmacSha256 (utf8Bytes S) Q ≠ hmacSha256 (utf8Bytes S) P →
      validateSignature S Q
        (some (String.mk (tag ++ ws1 ++ bytesToHex (hmacSha256 (utf8Bytes S) P) ++ ws2))) =
        false) := by
  constructor
  · rw [validateSignature_value S P P tag ws1 ws2 htag h1 h2]
    simp
  · intro Q hQ
    rw [validateSignature_value S P Q tag ws1 ws2 htag h1 h2]
    simp [Ne.symm hQ]

set_option maxRecDepth 1000000 in
/-- C1 counterexample: the exact hex digest carried with the `sha256=` prefix
and surrounding whitespace is rejected when the whitespace precedes the
prefix, because the source strips the prefix before trimming. -/
theorem c1_counterexample_whitespace_before_tag :
    validateSignature "s" [97]
      (some (String.mk (' ' :: ("sha256=".data ++
        bytesToHex (hmacSha256 (utf8Bytes "s") [97]))))) = false := by
  decide

set_option maxRecDepth 1000000 in
/-- Witness for C1: concrete acceptance of a tagged, whitespace-padded digest
for payload `[97]` under secret `"s"`, and rejection for the single-byte
mutation `[98]`, whose digest is checked to differ. -/
theorem c1_witness_concrete_accept_reject :
    validateSignature "s" [97]
      (some (String.mk ("sha256=".data ++ [' '] ++
        bytesToHex (hmacSha256 (utf8Bytes "s") [97]) ++ [' ']))) = true ∧
    hmacSha256 (utf8Bytes "s") [98] ≠ hmacSha256 (utf8Bytes "s") [97] ∧
    validateSignature "s" [98]
      (some (String.mk ("sha256=".data ++ [' '] ++
        bytesToHex (hmacSha256 (utf8Bytes "s") [97]) ++ [' ']))) = false := by
  have hne : hmacSha256 (utf8Bytes "s") [98] ≠ hmacSha256 (utf8Bytes "s") [97] := by decide
  have h := c1_signature_accepts_digest_rejects_changed_digest "s" [97]
    "sha256=".data [' '] [' '] (Or.inr (by decide)) (by decide) (by decide)
  exact ⟨h.1, hne, h.2 [98] hne⟩

/-- C10: a header made of the correct 64 hex digest characters followed by
trailing junk whose first character is not a hex digit (and which contains no
whitespace for the trim step to touch) is accepted, because Node's hex decoder
truncates at the first invalid character — acceptance is not limited to exact
hex digests. -/
theorem c10_trailing_nonhex_accepted
    (S : String) (P : List Nat) (c : Char) (rest : List Char)
    (hc : hexVal c = none)
    (hws : ∀ x ∈ c :: rest, isJsWhitespace x = false) :
    validateSignature S P
      (some (String.mk (bytesToHex (hmacSha256 (utf8Bytes S) P) ++ c :: rest))) = true := by
  set hex := bytesToHex (hmacSha256 (utf8Bytes S) P) with hhex
  have hexmem : ∀ x ∈ hex, ∃ m, m < 16 ∧ x = hexDigitChar m :=
    bytesToHex_mem _ (hmacSha256_mem_lt _ _)
  have hexlen : hex.length = 64 := by
    rw [hhex, bytesToHex_length, hmacSha256_length]
  have hexne : hex ≠ [] := by
    intro h0
    rw [h0] at hexlen
    simp at hexlen
  have hexnws : ∀ x ∈ hex, isJsWhitespace x = false := by
    intro x hx
    obtain ⟨m, hm, rfl⟩ := hexmem x hx
    exact hexDigitChar_not_ws m hm
  have hmidnws : ∀ x ∈ hex ++ c :: rest, isJsWhitespace x = false := by
    intro x hx
    rcases List.mem_append.mp hx with hx | hx
    · exact hexnws x hx
    · exact hws x hx
  have hmidne : hex ++ c :: rest ≠ [] := by
    intro h0
    exact hexne (List.append_eq_nil.mp h0).1
  have hdrop : dropSha256Tag (hex ++ c :: rest) = hex ++ c :: rest := by
    cases hhex2 : hex with
    | nil => exact absurd hhex2 hexne
    | cons h0 ht =>
      obtain ⟨m, hm, hcm⟩ := hexmem h0 (by rw [hhex2]; simp)
      rw [List.cons_append, dropSha256Tag_of_head _ _ (hcm ▸ hexDigitChar_lower_ne_s m hm),
        ← List.cons_append]
  have htrim : trimChars (hex ++ c :: rest) = hex ++ c :: rest := by
    have := trim_sandwich [] [] (hex ++ c :: rest) (by simp) (by simp) hmidnws hmidne
    simpa using this
  simp only [validateSignature]
  rw [if_neg hmidne, hdrop, htrim, hhex,
    hexDecode_bytesToHex_append _ _ (hmacSha256_mem_lt _ _),
    hexDecode_head_bad c rest hc, List.append_nil,
    hexDecode_bytesToHex _ (hmacSha256_mem_lt _ _)]
  simp

set_option maxRecDepth 1000000 in
/-- Witness for C10: the digest of `[97]` under `"s"` followed by `"zz"` is
accepted. -/
theorem c10_witness_zz_suffix :
    hexVal 'z' = none ∧
    validateSignature "s" [97]
      (some (String.mk (bytesToHex (hmacSha256 (utf8Bytes "s") [97]) ++
        'z' :: ['z']))) = true := by
  exact ⟨by decide, c10_trailing_nonhex_accepted "s" [97] 'z' ['z'] (by decide) (by decide)⟩

/-! ## Claim about the timestamp validator -/

/-- C8: `validateTimestamp` returns `false` (it does not throw) on an
unparsable timestamp, and otherwise accepts exactly when the absolute
difference between the current time and the parsed time is at most
`toleranceMinutes * 60000` ms — the same bound on the too-old and the
too-future side. -/
theorem c8_timestamp_symmetric_window
    (parseDate : String → Option Int) (now : Int) (ts : String) (tol : Nat) :
    (parseDate ts = none → validateTimestamp parseDate now ts tol = false) ∧
    (∀ w : Int, parseDate ts = some w →
      (validateTimestamp parseDate now ts tol = true ↔ (now - w).natAbs ≤ tol * 60000) ∧
      validateTimestamp parseDate now ts tol =
        validateTimestamp (fun _ => some now) w ts tol) := by
  refine ⟨fun h => by simp [validateTimestamp, h], fun w hw => ⟨?_, ?_⟩⟩
  · simp only [validateTimestamp, hw, decide_eq_true_eq]
    omega
  · simp only [validateTimestamp, hw]
    have habs : (now - w).natAbs = (w - now).natAbs := by omega
    rw [habs]

/-- Witness for C8: an unparsable timestamp yields `false`; a parsed time 100
ms away from `now = 0` is inside the default 5-minute window. -/
theorem c8_witness_concrete :
    validateTimestamp (fun _ => none) 0 "not-a-timestamp" 5 = false ∧
    validateTimestamp (fun _ => some 100) 0 "2024-01-01T00:00:00Z" 5 = true := by
  constructor
  · exact (c8_timestamp_symmetric_window (fun _ => none) 0 "not-a-timestamp" 5).1 rfl
  · exact ((c8_timestamp_symmetric_window (fun _ => some 100) 0
      "2024-01-01T00:00:00Z" 5).2 100 rfl).1.mpr (by decide)

/-! ## Base64url, split and UTF-8 lemmas -/

theorem b64Val_b64Char : ∀ n < 64, b64Val (b64Char n) = some n := by decide

theorem b64Char_ne_dot (n : Nat) : b64Char n ≠ '.' := by
  by_cases h : n < 64
  · exact (by decide : ∀ m < 64, b64Char m ≠ '.') n h
  · have hl : b64Chars.length = 64 := rfl
    unfold b64Char
    rw [List.getD_eq_default _ _ (by omega)]
    decide

theorem b64urlEncode_no_dot : ∀ (l : List Nat), '.' ∉ b64urlEncode l
  | b1 :: b2 :: b3 :: rest => by
    intro h
    simp only [b64urlEncode, List.mem_cons] at h
    rcases h with h | h | h | h | h
    · exact b64Char_ne_dot _ h.symm
    · exact b64Char_ne_dot _ h.symm
    · exact b64Char_ne_dot _ h.symm
    · exact b64Char_ne_dot _ h.symm
    · exact b64urlEncode_no_dot rest h
  | [b1, b2] => by
    intro h
    simp only [b64urlEncode, List.mem_cons, List.not_mem_nil, or_false] at h
    rcases h with h | h | h <;> exact b64Char_ne_dot _ h.symm
  | [b1] => by
    intro h
    simp only [b64urlEncode, List.mem_cons, List.not_mem_nil, or_false] at h
    rcases h with h | h <;> exact b64Char_ne_dot _ h.symm
  | [] => by simp [b64urlEncode]

theorem b64_roundtrip : ∀ (l : List Nat), (∀ b ∈ l, b < 256) →
    b64urlDecode (b64urlEncode l) = l
  | b1 :: b2 :: b3 :: rest => fun h => by
    have hb1 : b1 < 256 := h b1 (by simp)
    have hb2 : b2 < 256 := h b2 (by simp)
    have hb3 : b3 < 256 := h b3 (by simp)
    have h1 := b64Val_b64Char (b1 / 4) (by omega)
    have h2 := b64Val_b64Char (b1 % 4 * 16 + b2 / 16) (by omega)
    have h3 := b64Val_b64Char (b2 % 16 * 4 + b3 / 64) (by omega)
    have h4 := b64Val_b64Char (b3 % 64) (by omega)
    have hrec := b64_roundtrip rest (fun x hx => h x (by simp [hx]))
    simp only [b64urlEncode, b64urlDecode, h1, h2, h3, h4, hrec, List.cons.injEq, and_true]
    omega
  | [b1, b2] => fun h => by
    have hb1 : b1 < 256 := h b1 (by simp)
    have hb2 : b2 < 256 := h b2 (by simp)
    have h1 := b64Val_b64Char (b1 / 4) (by omega)
    have h2 := b64Val_b64Char (b1 % 4 * 16 + b2 / 16) (by omega)
    have h3 := b64Val_b64Char (b2 % 16 * 4) (by omega)
    simp only [b64urlEncode, b64urlDecode, h1, h2, h3, List.cons.injEq, and_true]
    omega
  | [b1] => fun h => by
    have hb1 : b1 < 256 := h b1 (by simp)
    have h1 := b64Val_b64Char (b1 / 4) (by omega)
    have h2 := b64Val_b64Char (b1 % 4 * 16) (by omega)
    simp only [b64urlEncode, b64urlDecode, h1, h2, List.cons.injEq, and_true]
    omega
  | [] => fun _ => rfl

theorem splitOnDot_no_dot : ∀ (l : List Char), '.' ∉ l → splitOnDot l = [l]
  | [] => fun _ => rfl
  | c :: rest => fun h => by
    have hc : ¬c = '.' := fun hc => h (hc ▸ List.mem_cons_self c rest)
    have ht := splitOnDot_no_dot rest (fun hm => h (List.mem_cons_of_mem c hm))
    simp only [splitOnDot, if_neg hc, ht]

theorem splitOnDot_append (a r : List Char) (ha : '.' ∉ a) :
    splitOnDot (a ++ '.' :: r) = a :: splitOnDot r := by
  induction a with
  | nil => simp [splitOnDot]
  | cons c t ih =>
    have hc : ¬c = '.' := fun h => ha (h ▸ List.mem_cons_self _ _)
    have ht : '.' ∉ t := fun hm => ha (List.mem_cons_of_mem _ hm)
    rw [List.cons_append]
    simp only [splitOnDot, if_neg hc, ih ht]

theorem char_toNat_lt (c : Char) : c.toNat < 1114112 := by
  rcases c.valid with h | ⟨h1, h2⟩
  · exact Nat.lt_trans h (by decide)
  · exact h2

theorem utf8EncodeChar_lt (n : Nat) (hn : n < 1114112) :
    ∀ b ∈ utf8EncodeChar n, b < 256 := by
  unfold utf8EncodeChar
  split_ifs with h1 h2 h3 <;> intro b hb <;> simp only [List.mem_cons, List.not_mem_nil,
    or_false] at hb
  · omega
  all_goals rcases hb with hb | hb
  · omega
  · omega
  · omega
  · rcases hb with hb | hb <;> omega
  · omega
  · rcases hb with hb | hb | hb <;> omega

theorem utf8BytesOfChars_cons (c : Char) (l : List Char) :
    utf8BytesOfChars (c :: l) = utf8EncodeChar c.toNat ++ utf8BytesOfChars l := rfl

theorem utf8BytesOfChars_lt (l : List Char) : ∀ b ∈ utf8BytesOfChars l, b < 256 := by
  induction l with
  | nil => simp [utf8BytesOfChars]
  | cons c t ih =>
    intro b hb
    rw [utf8BytesOfChars_cons] at hb
    rcases List.mem_append.mp hb with hb | hb
    · exact utf8EncodeChar_lt c.toNat (char_toNat_lt c) b hb
    · exact ih b hb

theorem utf8DecodeAux_encodeChar (fuel : Nat) (c : Char) (rest : List Nat) :
    utf8DecodeAux (fuel + 1) (utf8EncodeChar c.toNat ++ rest) =
      c :: utf8DecodeAux fuel rest := by
  have hlt := char_toNat_lt c
  unfold utf8EncodeChar
  split_ifs with h1 h2 h3
  · rw [List.cons_append, List.nil_append, utf8DecodeAux]
    rw [if_pos h1, Char.ofNat_toNat]
  · have e1 : ¬(192 + c.toNat / 64 < 128) := by omega
    have e2 : 192 + c.toNat / 64 < 224 := by omega
    rw [List.cons_append, List.cons_append, List.nil_append, utf8DecodeAux,
      if_neg e1, if_pos e2]
    simp only [List.headD_cons, List.drop_succ_cons, List.drop_zero]
    have e3 : (192 + c.toNat / 64 - 192) * 64 + (128 + c.toNat % 64 - 128) = c.toNat := by
      omega
    rw [e3, Char.ofNat_toNat]
  · have e1 : ¬(224 + c.toNat / 4096 < 128) := by omega
    have e2 : ¬(224 + c.toNat / 4096 < 224) := by omega
    have e3 : 224 + c.toNat / 4096 < 240 := by omega
    rw [List.cons_append, List.cons_append, List.cons_append, List.nil_append,
      utf8DecodeAux, if_neg e1, if_neg e2, if_pos e3]
    simp only [List.headD_cons, List.drop_succ_cons, List.drop_zero]
    have e4 : ((224 + c.toNat / 4096 - 224) * 64 + (128 + c.toNat / 64 % 64 - 128)) * 64 +
        (128 + c.toNat % 64 - 128) = c.toNat := by omega
    rw [e4, Char.ofNat_toNat]
  · have e1 : ¬(240 + c.toNat / 262144 < 128) := by omega
    have e2 : ¬(240 + c.toNat / 262144 < 224) := by omega
    have e3 : ¬(240 + c.toNat / 262144 < 240) := by omega
    rw [List.cons_append, List.cons_append, List.cons_append, List.cons_append,
      List.nil_append, utf8DecodeAux, if_neg e1, if_neg e2, if_neg e3]
    simp only [List.headD_cons, List.drop_succ_cons, List.drop_zero]
    have e4 : (((240 + c.toNat / 262144 - 240) * 64 + (128 + c.toNat / 4096 % 64 - 128)) * 64 +
        (128 + c.toNat / 64 % 64 - 128)) * 64 + (128 + c.toNat % 64 - 128) = c.toNat := by
      omega
    rw [e4, Char.ofNat_toNat]

theorem utf8DecodeAux_bytesOfChars (l : List Char) :
    ∀ fuel, l.length ≤ fuel → utf8DecodeAux fuel (utf8BytesOfChars l) = l := by
  induction l with
  | nil =>
    intro fuel _
    cases fuel with
    | zero => rfl
    | succ f => rfl
  | cons c t ih =>
    intro fuel hf
    cases fuel with
    | zero => simp at hf
    | succ f =>
      rw [utf8BytesOfChars_cons, utf8DecodeAux_encodeChar, ih f (by simpa using hf)]

theorem length_le_utf8BytesOfChars (l : List Char) :
    l.length ≤ (utf8BytesOfChars l).length := by
  induction l with
  | nil => simp [utf8BytesOfChars]
  | cons c t ih =>
    rw [utf8BytesOfChars_cons, List.length_append, List.length_cons]
    have h1 : 1 ≤ (utf8EncodeChar c.toNat).length := by
      unfold utf8EncodeChar
      split_ifs <;> simp
    omega

theorem utf8_roundtrip (l : List Char) : utf8DecodeBytes (utf8BytesOfChars l) = l :=
  utf8DecodeAux_bytesOfChars l _ (length_le_utf8BytesOfChars l)

/-! ## JSON serialization lemmas -/

theorem escapeJsonString_eq (s : String) : escapeJsonString s = escapeChars s.data := rfl

theorem escapeChars_cons (c : Char) (t : List Char) :
    escapeChars (c :: t) = escapeJsonChar c ++ escapeChars t := rfl

theorem parseLit_append : ∀ (lit r : List Char), parseLit lit (lit ++ r) = some r
  | [], r => rfl
  | p :: ps, r => by
    rw [List.cons_append, parseLit.eq_def]
    dsimp only []
    rw [if_pos rfl]
    exact parseLit_append ps r

theorem parseJsonStringBody_quote (r : List Char) :
    parseJsonStringBody ('"' :: r) = some ([], r) := by
  rw [parseJsonStringBody.eq_def]
  dsimp only []
  rw [if_pos rfl]

theorem parseJsonStringBody_escape : ∀ (l r : List Char),
    parseJsonStringBody (escapeChars l ++ '"' :: r) = some (l, r)
  | [], r => parseJsonStringBody_quote r
  | c :: t, r => by
    have ih := parseJsonStringBody_escape t r
    rw [escapeChars_cons, List.append_assoc]
    by_cases hq : c = '"'
    · subst hq
      rw [show escapeJsonChar '"' = ['\\', '"'] from rfl]
      show (parseJsonStringBody (escapeChars t ++ '"' :: r)).map
        (fun pr => ('"' :: pr.1, pr.2)) = some ('"' :: t, r)
      rw [ih]
      rfl
    · by_cases hb : c = '\\'
      · subst hb
        rw [show escapeJsonChar '\\' = ['\\', '\\'] from rfl]
        show (parseJsonStringBody (escapeChars t ++ '"' :: r)).map
          (fun pr => ('\\' :: pr.1, pr.2)) = some ('\\' :: t, r)
        rw [ih]
        rfl
      · by_cases h8 : c.toNat = 8
        · rw [show escapeJsonChar c = ['\\', 'b'] by
            unfold escapeJsonChar; rw [if_neg hq, if_neg hb, if_pos h8]]
          show (parseJsonStringBody (escapeChars t ++ '"' :: r)).map
            (fun pr => (Char.ofNat 8 :: pr.1, pr.2)) = some (c :: t, r)
          rw [ih, show Char.ofNat 8 = c by rw [← h8, Char.ofNat_toNat]]
          rfl
        · by_cases h9 : c.toNat = 9
          · rw [show escapeJsonChar c = ['\\', 't'] by
              unfold escapeJsonChar; rw [if_neg hq, if_neg hb, if_neg h8, if_pos h9]]
            show (parseJsonStringBody (escapeChars t ++ '"' :: r)).map
              (fun pr => (Char.ofNat 9 :: pr.1, pr.2)) = some (c :: t, r)
            rw [ih, show Char.ofNat 9 = c by rw [← h9, Char.ofNat_toNat]]
            rfl
          · by_cases h10 : c.toNat = 10
            · rw [show escapeJsonChar c = ['\\', 'n'] by
                unfold escapeJsonChar
                rw [if_neg hq, if_neg hb, if_neg h8, if_neg h9, if_pos h10]]
              show (parseJsonStringBody (escapeChars t ++ '"' :: r)).map
                (fun pr => (Char.ofNat 10 :: pr.1, pr.2)) = some (c :: t, r)
              rw [ih, show Char.ofNat 10 = c by rw [← h10, Char.ofNat_toNat]]
              rfl
            · by_cases h12 : c.toNat = 12
              · rw [show escapeJsonChar c = ['\\', 'f'] by
                  unfold escapeJsonChar
                  rw [if_neg hq, if_neg hb, if_neg h8, if_neg h9, if_neg h10, if_pos h12]]
                show (parseJsonStringBody (escapeChars t ++ '"' :: r)).map
                  (fun pr => (Char.ofNat 12 :: pr.1, pr.2)) = some (c :: t, r)
                rw [ih, show Char.ofNat 12 = c by rw [← h12, Char.ofNat_toNat]]
                rfl
              · by_cases h13 : c.toNat = 13
                · rw [show escapeJsonChar c = ['\\', 'r'] by
                    unfold escapeJsonChar
                    rw [if_neg hq, if_neg hb, if_neg h8, if_neg h9, if_neg h10, if_neg h12,
                      if_pos h13]]
                  show (parseJsonStringBody (escapeChars t ++ '"' :: r)).map
                    (fun pr => (Char.ofNat 13 :: pr.1, pr.2)) = some (c :: t, r)
                  rw [ih, show Char.ofNat 13 = c by rw [← h13, Char.ofNat_toNat]]
                  rfl
                · by_cases hlt : c.toNat < 32
                  · rw [show escapeJsonChar c = ['\\', 'u', '0', '0',
                        hexDigitChar (c.toNat / 16), hexDigitChar (c.toNat % 16)] by
                      unfold escapeJsonChar
                      rw [if_neg hq, if_neg hb, if_neg h8, if_neg h9, if_neg h10, if_neg h12,
                        if_neg h13, if_pos hlt]]
                    rw [parseJsonStringBody.eq_def]
                    simp only [List.cons_append, List.nil_append]
                    rw [show hexVal '0' = some 0 from rfl,
                      hexVal_hexDigitChar (c.toNat / 16) (by omega),
                      hexVal_hexDigitChar (c.toNat % 16) (by omega)]
                    dsimp only []
                    rw [ih, show Char.ofNat (((0 * 16 + 0) * 16 + c.toNat / 16) * 16 +
                        c.toNat % 16) = c by
                      rw [show ((0 * 16 + 0) * 16 + c.toNat / 16) * 16 + c.toNat % 16 =
                        c.toNat by omega, Char.ofNat_toNat]]
                    simp
                  · rw [show escapeJsonChar c = [c] by
                      unfold escapeJsonChar
                      rw [if_neg hq, if_neg hb, if_neg h8, if_neg h9, if_neg h10, if_neg h12,
                        if_neg h13, if_neg hlt]]
                    rw [List.cons_append, List.nil_append, parseJsonStringBody.eq_def]
                    dsimp only []
                    rw [if_neg hq, if_neg hb, ih]
                    rfl

theorem digitChar_facts : ∀ m < 10, ('0' ≤ Char.ofNat (48 + m) ∧ Char.ofNat (48 + m) ≤ '9') ∧
    (Char.ofNat (48 + m)).toNat = 48 + m := by decide

theorem natDigitsWF_digits (n : Nat) : ∀ ch ∈ natDigitsWF n, '0' ≤ ch ∧ ch ≤ '9' := by
  induction n using Nat.strong_induction_on with
  | _ n ih =>
    rw [natDigitsWF]
    split_ifs with h
    · intro ch hch
      simp only [List.mem_singleton] at hch
      subst hch
      exact (digitChar_facts n h).1
    · intro ch hch
      rcases List.mem_append.mp hch with hch | hch
      · exact ih (n / 10) (Nat.div_lt_self (by omega) (by omega)) ch hch
      · simp only [List.mem_singleton] at hch
        subst hch
        exact (digitChar_facts (n % 10) (by omega)).1

theorem natDigitsWF_ne_nil (n : Nat) : natDigitsWF n ≠ [] := by
  rw [natDigitsWF]
  split_ifs with h <;> simp

theorem parseDigits_stop (rest : List Char) (a : Nat)
    (hrest : ∀ c, rest.head? = some c → ¬('0' ≤ c ∧ c ≤ '9')) :
    parseDigits rest a = (a, rest) := by
  cases rest with
  | nil => rfl
  | cons c t =>
    rw [parseDigits.eq_def]
    dsimp only []
    rw [if_neg (hrest c rfl)]

theorem parseDigits_natDigitsWF (n : Nat) : ∀ (a : Nat) (rest : List Char),
    parseDigits (natDigitsWF n ++ rest) a =
      parseDigits rest (a * 10 ^ (natDigitsWF n).length + n) := by
  induction n using Nat.strong_induction_on with
  | _ n ih =>
    intro a rest
    rw [natDigitsWF]
    split_ifs with h
    · rw [List.singleton_append, parseDigits.eq_def]
      dsimp only []
      rw [if_pos (digitChar_facts n h).1, (digitChar_facts n h).2]
      congr 1
      rw [List.length_singleton, pow_one]
      omega
    · rw [List.append_assoc, List.singleton_append,
        ih (n / 10) (Nat.div_lt_self (by omega) (by omega)) a
          (Char.ofNat (48 + n % 10) :: rest),
        parseDigits.eq_def]
      dsimp only []
      rw [if_pos (digitChar_facts (n % 10) (by omega)).1,
        (digitChar_facts (n % 10) (by omega)).2]
      congr 1
      rw [List.length_append, List.length_singleton, pow_succ]
      have hmod : n / 10 * 10 + (48 + n % 10 - 48) = n := by omega
      calc (a * 10 ^ (natDigitsWF (n / 10)).length + n / 10) * 10 + (48 + n % 10 - 48)
          = a * (10 ^ (natDigitsWF (n / 10)).length * 10) +
              (n / 10 * 10 + (48 + n % 10 - 48)) := by ring
        _ = a * (10 ^ (natDigitsWF (n / 10)).length * 10) + n := by rw [hmod]

theorem natDigitsAux_eq : ∀ (fuel n : Nat) (acc : List Char), n < 10 ^ (fuel + 1) →
    natDigitsAux (fuel + 1) n acc = natDigitsWF n ++ acc := by
  intro fuel
  induction fuel with
  | zero =>
    intro n acc h
    have h10 : n < 10 := by simpa using h
    rw [natDigitsAux, if_pos h10, natDigitsWF, dif_pos h10, List.singleton_append]
  | succ f ihf =>
    intro n acc h
    rw [natDigitsAux]
    by_cases h10 : n < 10
    · rw [if_pos h10, natDigitsWF, dif_pos h10, List.singleton_append]
    · have hdiv : n / 10 < 10 ^ (f + 1) := by
        rw [pow_succ] at h
        exact (Nat.div_lt_iff_lt_mul (by omega)).mpr h
      rw [if_neg h10, ihf (n / 10) (Char.ofNat (48 + n % 10) :: acc) hdiv]
      conv_rhs => rw [natDigitsWF]
      rw [dif_neg h10, List.append_assoc, List.singleton_append]

theorem natDigits_eq_WF (n : Nat) : natDigits n = natDigitsWF n := by
  have h : n < 10 ^ (n + 1) :=
    lt_of_lt_of_le (Nat.lt_pow_self (by omega) n) (Nat.pow_le_pow_right (by omega) (by omega))
  have := natDigitsAux_eq n n [] h
  simpa [natDigits] using this

theorem parseJsonNat_natDigits (n : Nat) (rest : List Char)
    (hrest : ∀ c, rest.head? = some c → ¬('0' ≤ c ∧ c ≤ '9')) :
    parseJsonNat (natDigits n ++ rest) = some (n, rest) := by
  rw [natDigits_eq_WF]
  obtain ⟨d0, dt, hWF⟩ : ∃ d0 dt, natDigitsWF n = d0 :: dt := by
    cases hW : natDigitsWF n with
    | nil => exact absurd hW (natDigitsWF_ne_nil n)
    | cons d0 dt => exact ⟨d0, dt, rfl⟩
  rw [hWF, List.cons_append, parseJsonNat.eq_def]
  dsimp only []
  rw [if_pos (natDigitsWF_digits n d0 (by rw [hWF]; simp))]
  rw [← List.cons_append, ← hWF, parseDigits_natDigitsWF n 0 rest,
    parseDigits_stop rest _ hrest]
  simp

theorem parseTokenJson_stringify (t : DonationToken) :
    parseTokenJson (jsonStringifyToken t) = some t := by
  unfold parseTokenJson jsonStringifyToken
  have hT : "\x7b\"orderId\":\"".data ++ escapeJsonString t.orderId ++
      "\",\"eventId\":\"".data ++ escapeJsonString t.eventId ++
      "\",\"timestamp\":".data ++ natDigits t.timestamp ++
      ",\"exp\":".data ++ natDigits t.exp ++ "\x7d".data =
      "\x7b\"orderId\":\"".data ++ (escapeChars t.orderId.data ++
        ('"' :: (",\"eventId\":\"".data ++ (escapeChars t.eventId.data ++
          ('"' :: (",\"timestamp\":".data ++ (natDigits t.timestamp ++
            (",\"exp\":".data ++ (natDigits t.exp ++ "\x7d".data))))))))) := by
    simp [escapeJsonString_eq, List.append_assoc]
  rw [hT, parseLit_append]
  simp only [Option.bind_eq_bind, Option.some_bind]
  rw [parseJsonStringBody_escape]
  simp only [Option.some_bind]
  rw [parseLit_append]
  simp only [Option.some_bind]
  rw [parseJsonStringBody_escape]
  simp only [Option.some_bind]
  rw [parseLit_append]
  simp only [Option.some_bind]
  rw [parseJsonNat_natDigits t.timestamp _ (fun c hc => by
    rw [show ((",\"exp\":".data ++ (natDigits t.exp ++ "\x7d".data)).head? :
      Option Char) = some ',' from rfl] at hc
    cases hc
    decide)]
  simp only [Option.some_bind]
  rw [parseLit_append]
  simp only [Option.some_bind]
  rw [parseJsonNat_natDigits t.exp _ (fun c hc => by
    rw [show (("\x7d".data).head? : Option Char) = some '\x7d' from rfl] at hc
    cases hc
    decide)]
  simp only [Option.some_bind]
  rw [show parseLit "\x7d".data "\x7d".data = some [] from rfl]
  simp only [Option.some_bind]
  rfl

/-! ## Token codec lemmas -/

theorem signPayload_no_dot (secret : String) (payload : List Char) :
    '.' ∉ signPayload secret payload :=
  b64urlEncode_no_dot _

theorem validateToken_generate (secret orderId eventId : String) (t0 now : Nat) :
    validateToken secret (generateDonationToken secret orderId eventId t0) now =
      if t0 + 24 * 60 * 60 * 1000 < now then none
      else some ⟨orderId, eventId, t0, t0 + 24 * 60 * 60 * 1000⟩ := by
  unfold generateDonationToken validateToken
  rw [splitOnDot_append _ _ (b64urlEncode_no_dot _),
    splitOnDot_no_dot _ (signPayload_no_dot _ _)]
  dsimp only []
  rw [if_pos rfl, b64_roundtrip _ (utf8BytesOfChars_lt _), utf8_roundtrip,
    parseTokenJson_stringify]

theorem validateToken_no_sep (secret : String) (tok : List Char) (now : Nat)
    (h : '.' ∉ tok) : validateToken secret tok now = none := by
  unfold validateToken
  rw [splitOnDot_no_dot tok h]

theorem validateToken_extra_segment (secret : String) (p s extra : List Char) (now : Nat)
    (hp : '.' ∉ p) (hs : '.' ∉ s) :
    validateToken secret (p ++ '.' :: (s ++ '.' :: extra)) now =
      validateToken secret (p ++ '.' :: s) now := by
  unfold validateToken
  rw [splitOnDot_append p (s ++ '.' :: extra) hp, splitOnDot_append s extra hs,
    splitOnDot_append p s hp, splitOnDot_no_dot s hs]

theorem validateToken_generate_junk (secret orderId eventId : String) (t0 now : Nat)
    (extra : List Char) :
    validateToken secret (generateDonationToken secret orderId eventId t0 ++ '.' :: extra)
      now = validateToken secret (generateDonationToken secret orderId eventId t0) now := by
  unfold generateDonationToken
  rw [List.append_assoc, List.cons_append]
  exact validateToken_extra_segment secret _ _ extra now
    (b64urlEncode_no_dot _) (signPayload_no_dot _ _)

/-! ## Claims about the token codec -/

/-- C6: validating an issued token before its expiration returns a token whose
orderId and eventId equal the inputs (with issuance time and a fixed 24-hour
expiration), while validating it strictly after issuance + 24h yields
invalid — in particular 24h − ε is accepted and 24h + ε rejected. -/
theorem c6_issue_validate_roundtrip_ttl (secret orderId eventId : String) (t0 now : Nat) :
    (now ≤ t0 + 24 * 60 * 60 * 1000 →
      validateToken secret (generateDonationToken secret orderId eventId t0) now =
        some ⟨orderId, eventId, t0, t0 + 24 * 60 * 60 * 1000⟩) ∧
    (t0 + 24 * 60 * 60 * 1000 < now →
      validateToken secret (generateDonationToken secret orderId eventId t0) now =
        none) := by
  constructor
  · intro h
    rw [validateToken_generate, if_neg (by omega)]
  · intro h
    rw [validateToken_generate, if_pos h]

/-- Witness for C6: a token issued at time 0 validates 1 ms before the 24-hour
mark with the original orderId/eventId, and is rejected 1 ms after it. -/
theorem c6_witness_24h_boundary :
    validateToken "s" (generateDonationToken "s" "o" "e" 0) 86399999 =
      some ⟨"o", "e", 0, 86400000⟩ ∧
    validateToken "s" (generateDonationToken "s" "o" "e" 0) 86400001 = none := by
  constructor
  · exact (c6_issue_validate_roundtrip_ttl "s" "o" "e" 0 86399999).1 (by omega)
  · exact (c6_issue_validate_roundtrip_ttl "s" "o" "e" 0 86400001).2 (by omega)

/-- C7 as amended: `validate` fails closed on a token with no separator, but a
token with two or more separators is not rejected as such — only the first two
segments are consulted and everything after the second separator is ignored. -/
theorem c7_separator_handling (secret : String) (tok p s extra : List Char) (now : Nat) :
    ('.' ∉ tok → validateToken secret tok now = none) ∧
    ('.' ∉ p → '.' ∉ s →
      validateToken secret (p ++ '.' :: (s ++ '.' :: extra)) now =
        validateToken secret (p ++ '.' :: s) now) :=
  ⟨fun h => validateToken_no_sep secret tok now h,
   fun hp hs => validateToken_extra_segment secret p s extra now hp hs⟩

/-- Witness for C7: a dot-free token is rejected, and for dot-free segments the
extra-separator token validates exactly as the two-segment token does. -/
theorem c7_witness_separators :
    validateToken "s" ['a', 'b'] 0 = none ∧
    validateToken "s" (['a'] ++ '.' :: (['b'] ++ '.' :: ['c'])) 0 =
      validateToken "s" (['a'] ++ '.' :: ['b']) 0 := by
  have h := c7_separator_handling "s" ['a', 'b'] ['a'] ['b'] ['c'] 0
  exact ⟨h.1 (by decide), h.2 (by decide) (by decide)⟩

/-- C7 counterexample: a freshly issued token with `".x"` appended contains two
separators, yet `validateToken` accepts it and returns the embedded payload,
refuting the claim that any token without exactly one separator is rejected. -/
theorem c7_counterexample_two_separators :
    validateToken "s" (generateDonationToken "s" "o" "e" 0 ++ '.' :: ['x']) 0 =
      some ⟨"o", "e", 0, 86400000⟩ := by
  rw [validateToken_generate_junk, validateToken_generate, if_neg (by omega)]
